import Mathlib

/-!
Shallow embedding of `src/primitives/src/primitives.rs` (crate `primitives`
of the `queen` repository): the card-game value types `Suit`, `Rank`,
`Card`, `HandIdentifier`, `PlayerName`, their derived orderings and
iteration order, the seat-topology functions `next`, `partner`,
`player_name`, `primary_hand`, and the `Display` renderings.
-/

namespace Primitives

/-- Embeds the Rust enum `Suit` with variants in declaration order
Clubs, Diamonds, Hearts, Spades. -/
inductive Suit where
  | Clubs
  | Diamonds
  | Hearts
  | Spades
deriving DecidableEq, Repr, Fintype

/-- Embeds the Rust enum `Rank` with variants in declaration order
Two .. Ten, Jack, Queen, King, Ace (aces high). -/
inductive Rank where
  | Two
  | Three
  | Four
  | Five
  | Six
  | Seven
  | Eight
  | Nine
  | Ten
  | Jack
  | Queen
  | King
  | Ace
deriving DecidableEq, Repr, Fintype

/-- Embeds the Rust enum `HandIdentifier` with variants in declaration
order North, East, South, West. -/
inductive HandIdentifier where
  | North
  | East
  | South
  | West
deriving DecidableEq, Repr, Fintype

/-- Embeds the Rust enum `PlayerName` with variants User, Opponent. -/
inductive PlayerName where
  | User
  | Opponent
deriving DecidableEq, Repr, Fintype

/-- Embeds the Rust struct `Card { suit, rank }`. Structural equality over
the two fields mirrors the derived `PartialEq`/`Eq`. -/
structure Card where
  suit : Suit
  rank : Rank
deriving DecidableEq, Repr

/-- Discriminant of a `Suit` variant: its position in declaration order.
The Rust `derive(Ord)` on a field-less enum compares discriminants. -/
def Suit.discriminant : Suit → Nat
  | .Clubs => 0
  | .Diamonds => 1
  | .Hearts => 2
  | .Spades => 3

/-- Discriminant of a `Rank` variant: its position in declaration order. -/
def Rank.discriminant : Rank → Nat
  | .Two => 0
  | .Three => 1
  | .Four => 2
  | .Five => 3
  | .Six => 4
  | .Seven => 5
  | .Eight => 6
  | .Nine => 7
  | .Ten => 8
  | .Jack => 9
  | .Queen => 10
  | .King => 11
  | .Ace => 12

/-- Derived `Ord` comparison on `Suit`, as produced by Rust
`#[derive(Ord)]` on a field-less enum: compare discriminants. -/
def Suit.cmp (a b : Suit) : Ordering :=
  compare a.discriminant b.discriminant

/-- Derived `Ord` comparison on `Rank`: compare discriminants. -/
def Rank.cmp (a b : Rank) : Ordering :=
  compare a.discriminant b.discriminant

/-- Derived `Ord` comparison on `Card`, as produced by Rust
`#[derive(Ord)]` on a struct: lexicographic over the fields in
declaration order, `suit` first and then `rank`. -/
def Card.cmp (a b : Card) : Ordering :=
  (Suit.cmp a.suit b.suit).then (Rank.cmp a.rank b.rank)

/-- Strict order on `Suit` induced by the derived comparison. -/
def Suit.ltb (a b : Suit) : Bool :=
  Suit.cmp a b == Ordering.lt

/-- Strict order on `Rank` induced by the derived comparison. -/
def Rank.ltb (a b : Rank) : Bool :=
  Rank.cmp a b == Ordering.lt

/-- Strict order on `Card` induced by the derived comparison. -/
def Card.ltb (a b : Card) : Bool :=
  Card.cmp a b == Ordering.lt

/-- Embeds `Card::new(suit, rank)`: pairs the two fields, no validation. -/
def Card.new (suit : Suit) (rank : Rank) : Card :=
  ⟨suit, rank⟩

/-- Embeds `impl fmt::Display for Suit`: the single-character glyphs. -/
def Suit.display : Suit → String
  | .Clubs => "♣"
  | .Diamonds => "♦"
  | .Hearts => "♥"
  | .Spades => "♠"

/-- Embeds `impl fmt::Display for Rank`: decimal digits for Two..Ten and
single letters J, Q, K, A for the face ranks. -/
def Rank.display : Rank → String
  | .Two => "2"
  | .Three => "3"
  | .Four => "4"
  | .Five => "5"
  | .Six => "6"
  | .Seven => "7"
  | .Eight => "8"
  | .Nine => "9"
  | .Ten => "10"
  | .Jack => "J"
  | .Queen => "Q"
  | .King => "K"
  | .Ace => "A"

/-- Embeds `impl fmt::Display for Card`: `write!(f, "{}{}", self.rank,
self.suit)`, rank first then suit, no separator. -/
def Card.display (c : Card) : String :=
  c.rank.display ++ c.suit.display

/-- Embeds `HandIdentifier::next`: the seat following this one in turn
order. -/
def HandIdentifier.next : HandIdentifier → HandIdentifier
  | .North => .East
  | .East => .South
  | .South => .West
  | .West => .North

/-- Embeds `HandIdentifier::partner`: the fixed partner seat. -/
def HandIdentifier.partner : HandIdentifier → HandIdentifier
  | .North => .South
  | .East => .West
  | .South => .North
  | .West => .East

/-- Embeds `HandIdentifier::player_name`: the player controlling a seat. -/
def HandIdentifier.player_name : HandIdentifier → PlayerName
  | .South => .User
  | .North => .User
  | .East => .Opponent
  | .West => .Opponent

/-- Embeds `PlayerName::primary_hand`: the hand this player sees at the
beginning of the auction phase. -/
def PlayerName.primary_hand : PlayerName → HandIdentifier
  | .User => .South
  | .Opponent => .West

/-- Successor function produced by `derive(Sequence)` from the
`enum_iterator` crate on `Suit`: the next variant in declaration order,
`none` after the last. -/
def Suit.seqNext : Suit → Option Suit
  | .Clubs => some .Diamonds
  | .Diamonds => some .Hearts
  | .Hearts => some .Spades
  | .Spades => none

/-- Successor function produced by `derive(Sequence)` on
`HandIdentifier`. -/
def HandIdentifier.seqNext : HandIdentifier → Option HandIdentifier
  | .North => some .East
  | .East => some .South
  | .South => some .West
  | .West => none

/-- Successor function produced by `derive(Sequence)` on `Rank`. -/
def Rank.seqNext : Rank → Option Rank
  | .Two => some .Three
  | .Three => some .Four
  | .Four => some .Five
  | .Five => some .Six
  | .Six => some .Seven
  | .Seven => some .Eight
  | .Eight => some .Nine
  | .Nine => some .Ten
  | .Ten => some .Jack
  | .Jack => some .Queen
  | .Queen => some .King
  | .King => some .Ace
  | .Ace => none

/-- Fuel-bounded walk of a `Sequence` successor function starting from a
given element, mirroring `enum_iterator::all()` which starts at the first
variant and repeatedly takes the successor until it is exhausted. -/
def seqWalk {α : Type} (nxt : α → Option α) : Nat → α → List α
  | 0, _ => []
  | n + 1, a =>
    a :: (match nxt a with
      | none => []
      | some b => seqWalk nxt n b)

/-- Embeds `enum_iterator::all::<Suit>()`: all variants in declaration
order, starting from the first variant `Clubs`. -/
def Suit.all : List Suit :=
  seqWalk Suit.seqNext 4 Suit.Clubs

/-- Embeds `enum_iterator::all::<HandIdentifier>()`: all variants in
declaration order, starting from the first variant `North`. -/
def HandIdentifier.all : List HandIdentifier :=
  seqWalk HandIdentifier.seqNext 4 HandIdentifier.North

/-- Embeds `enum_iterator::all::<Rank>()`: all variants in declaration
order, starting from the first variant `Two`. -/
def Rank.all : List Rank :=
  seqWalk Rank.seqNext 13 Rank.Two

/-- The 52-card enumeration a deck-building collaborator obtains by
calling `Card::new` over all `Suit` × `Rank` combinations, suits outer
and ranks inner. -/
def allCards : List Card :=
  Suit.all.flatMap fun s => Rank.all.map fun r => Card.new s r

/-- C1: Card ordering is lexicographic with Suit as primary key and Rank
as secondary key: for every pair of suits s1 < s2 and all ranks r1, r2,
Card(s1,r1) < Card(s2,r2); for two cards of the same suit the order is
the Rank order with Ace maximal, so Card(Spades, Ace) > Card(Spades,
King). -/
theorem card_order_lex :
    (∀ s1 s2 : Suit, ∀ r1 r2 : Rank,
      Suit.ltb s1 s2 = true →
        Card.ltb (Card.new s1 r1) (Card.new s2 r2) = true) ∧
    (∀ s : Suit, ∀ r1 r2 : Rank,
      Card.ltb (Card.new s r1) (Card.new s r2) = Rank.ltb r1 r2) ∧
    Card.ltb (Card.new Suit.Spades Rank.King) (Card.new Suit.Spades Rank.Ace)
      = true := by
  decide

/-- Witness for C1: Clubs < Diamonds, and the ace of clubs sorts below
the two of diamonds. -/
theorem card_order_lex_witness :
    Card.ltb (Card.new Suit.Clubs Rank.Ace) (Card.new Suit.Diamonds Rank.Two)
      = true :=
  card_order_lex.1 Suit.Clubs Suit.Diamonds Rank.Ace Rank.Two (by decide)

/-- C2: HandIdentifier.next is the cyclic permutation
North→East→South→West→North: every seat returns to itself after four
steps and no seat is a fixed point. -/
theorem next_cycle :
    (∀ s : HandIdentifier, s.next.next.next.next = s ∧ s.next ≠ s) ∧
    HandIdentifier.next .North = .East ∧
    HandIdentifier.next .East = .South ∧
    HandIdentifier.next .South = .West ∧
    HandIdentifier.next .West = .North := by
  decide

/-- C3: HandIdentifier.partner is an involution with no fixed points
pairing North↔South and East↔West. -/
theorem partner_involution :
    (∀ s : HandIdentifier, s.partner.partner = s ∧ s.partner ≠ s) ∧
    HandIdentifier.partner .North = .South ∧
    HandIdentifier.partner .East = .West := by
  decide

/-- C4: player_name partitions the four seats exactly: the seats mapped
to User are exactly South and North, the seats mapped to Opponent are
exactly East and West, and every seat maps to exactly one player. -/
theorem player_name_split :
    ∀ s : HandIdentifier,
      (s.player_name = PlayerName.User ↔ (s = .South ∨ s = .North)) ∧
      (s.player_name = PlayerName.Opponent ↔ (s = .East ∨ s = .West)) := by
  decide

/-- C5: primary_hand is the fixed mapping User → South and
Opponent → West. -/
theorem primary_hand_fixed :
    PlayerName.primary_hand .User = .South ∧
    PlayerName.primary_hand .Opponent = .West := by
  decide

/-- C6: partnership consistency: every seat and its partner are
controlled by the same player. -/
theorem partner_same_player :
    ∀ s : HandIdentifier, s.partner.player_name = s.player_name := by
  decide

/-- C7: Card display is rank-then-suit concatenation with no separator,
with the glyphs ♣ ♦ ♥ ♠ and ranks rendered "2".."10", J, Q, K, A; in
particular the ace of spades displays as "A♠" and the ten of clubs as
"10♣". -/
theorem card_display_spec :
    Card.display (Card.new .Spades .Ace) = "A♠" ∧
    Card.display (Card.new .Clubs .Ten) = "10♣" ∧
    (∀ s : Suit, ∀ r : Rank,
      Card.display (Card.new s r) = Rank.display r ++ Suit.display s) := by
  decide

/-- C8: exhaustive iteration over Suit yields exactly
[Clubs, Diamonds, Hearts, Spades] in that order, and over HandIdentifier
exactly [North, East, South, West]. -/
theorem iteration_order :
    Suit.all = [.Clubs, .Diamonds, .Hearts, .Spades] ∧
    HandIdentifier.all = [.North, .East, .South, .West] := by
  decide

/-- C9: enumerating Card.new over all Suit × Rank combinations yields
exactly 52 pairwise distinct cards, and Card.new is injective: two cards
are equal iff both their suit and rank fields are equal. -/
theorem all_cards_distinct :
    allCards.length = 52 ∧ allCards.Nodup ∧
    (∀ s1 s2 : Suit, ∀ r1 r2 : Rank,
      Card.new s1 r1 = Card.new s2 r2 ↔ (s1 = s2 ∧ r1 = r2)) := by
  decide

/-- C10: primary_hand is a right inverse of player_name: each player
controls their own primary seat. -/
theorem primary_hand_round_trip :
    ∀ p : PlayerName, (p.primary_hand).player_name = p := by
  decide

end Primitives
